import Mathlib

/-!
Verification of the cuSPARSE oneMKL backend shim
(`cuSPARSE/spmv_csr/onemkl/`): per-thread, per-context lifecycle
management of vendor library handles, the scoped context handler, the
handle-cache drain, the context callback, and the overflow check.

The C++ sources are shallowly embedded: opaque pointers (CUcontext,
cusparseHandle_t, the atomic cell) become `Option Nat` where nullness
matters, vendor-library entry points become events in a trace, and the
throwing error macros become `Option CusparseErr` results that abort the
remaining computation.
-/

namespace CusparseShim

/-- A vendor-library status error carrying the name of the failing entry
point, as produced by the CUSPARSE_ERROR_FUNC macro in
cusparse_helper.hpp. -/
structure CusparseErr where
  entryPoint : String
deriving DecidableEq, Repr

/-- Vendor-library and driver calls observable in a trace.  Pointer
arguments that may be null are `Option Nat`. -/
inductive VEvent where
  | createCall : Nat → VEvent
  | destroyCall : Option Nat → VEvent
  | setStreamCall : Nat → Nat → VEvent
  | getStreamCall : Nat → VEvent
  | syncStream : Nat → VEvent
  | deleteCell : VEvent
  | exchangeCell : Option Nat → VEvent
  | ctxGetCurrent : VEvent
  | ctxSetCurrent : Option Nat → VEvent
  | registerCallback : VEvent
deriving DecidableEq, Repr

/-- Whether an event is a vendor handle creation (cusparseCreate). -/
def VEvent.isCreate : VEvent → Bool
  | .createCall _ => true
  | _ => false

/-! ## Overflow check (cusparse_helper.hpp, Overflow / overflow_check)

The variadic template `Overflow<Index, T...>::check` walks its int64
arguments in order and throws a runtime error at the first argument whose
absolute value reaches 2^31; the base case accepts.  `overflow_check`
forwards to it.  Indices are embedded as `Int` (the int64 arguments of
the template). -/

/-- The limit `1LL << 31` from Overflow::check. -/
def overflowLimit : Int := 2 ^ 31

/-- The message of the runtime error thrown by Overflow::check. -/
def overflowMsg : String :=
  "Cusparse index overflow. cusparse does not support 64 bit integer as data size. Thus, the data size should not be greater that maximum supported size by 32 bit integer."

/-- Embedding of the recursive `Overflow<Index, T...>::check`: the
variadic argument pack becomes a list, checked left to right; `std::abs`
on the int64 argument is integer absolute value. -/
def Overflow.check : List Int → Except String Unit
  | [] => .ok ()
  | index :: next =>
    if overflowLimit ≤ |index| then .error overflowMsg
    else Overflow.check next

/-- Embedding of `overflow_check` (the static_assert that all types are
int64 is reflected by the `Int` element type). -/
def overflow_check (indices : List Int) : Except String Unit :=
  Overflow.check indices

/-- Modelled from the spec: the outer interface (the SpMV entry points in
sparse.hpp, not part of src/) runs `overflow_check` over its 64-bit
matrix dimensions first and only then issues its vendor-library calls;
a failed check throws before any vendor call.  The vendor calls the
operation would issue are abstracted as the `vendorCalls` argument. -/
def outerInterface (dims : List Int) (vendorCalls : List VEvent) :
    List VEvent × Option String :=
  match overflow_check dims with
  | .error e => ([], some e)
  | .ok _ => (vendorCalls, none)

/-! ## Scoped context handler construction and destruction
(cusparse_scope_handle.cpp lines 41-67)

The thread's active CUDA driver context is a nullable pointer, embedded
as `Option Nat`; a queue projects to a (non-null) native context and a
native stream.  The constructor reads the current context (`original_`),
and when it differs from the queue's context it activates the queue's
context and records whether to recover, namely exactly when `original_`
was non-null. -/

/-- A SYCL queue, reduced to the projections the core consumes: its
native CUDA context and its native CUstream. -/
structure Queue where
  ctx : Nat
  stream : Nat
deriving DecidableEq, Repr

/-- The scoped handler state: `placedContext_` (the queue's context,
non-null), `original_` (the thread's context at construction, nullable)
and `needToRecover_`. -/
structure CusparseScopedContextHandler where
  placedContext_ : Nat
  original_ : Option Nat
  needToRecover_ : Bool
deriving DecidableEq, Repr

/-- Embedding of the CusparseScopedContextHandler constructor: given the
queue and the thread's active context, returns the handler, the new
active context, and the driver calls made. -/
def scopedCtor (queue : Queue) (threadCtx : Option Nat) :
    CusparseScopedContextHandler × Option Nat × List VEvent :=
  let desired := queue.ctx
  let original_ := threadCtx
  if original_ ≠ some desired then
    (⟨desired, original_, original_ ≠ none⟩, some desired,
      [.ctxGetCurrent, .ctxSetCurrent (some desired)])
  else
    (⟨desired, original_, false⟩, threadCtx, [.ctxGetCurrent])

/-- Embedding of the CusparseScopedContextHandler destructor: when
`needToRecover_` is set, restore `original_` as the active context. -/
def scopedDtor (sc : CusparseScopedContextHandler) (threadCtx : Option Nat) :
    Option Nat × List VEvent :=
  if sc.needToRecover_ then
    (sc.original_, [.ctxSetCurrent sc.original_])
  else
    (threadCtx, [])

/-! ## Context callback (cusparse_scope_handle.cpp lines 69-86)

`ContextCallback` receives a (possibly null) pointer to the atomic cell.
A null pointer returns immediately.  Otherwise it exchanges the cell's
slot with null; a non-null handle is destroyed through the vendor
library (which may fail, modelled by the `fails` oracle), a null result
means the handle was already destroyed and the cell object itself is
deleted. -/

/-- State of the atomic cell object after the callback ran: still
allocated with the given slot, or freed. -/
inductive CellObjState where
  | live : Option Nat → CellObjState
  | freed : CellObjState
deriving DecidableEq, Repr

/-- Embedding of `ContextCallback`.  `userData` is the possibly-null
pointer to the cell (`none` = null pointer; `some slot` = pointer to a
live cell whose atomic slot holds `slot`).  Returns the cell's state
after the call (or `none` when no cell was pointed to), the events, and
the error thrown by CUSPARSE_ERROR_FUNC if cusparseDestroy failed. -/
def ContextCallback (fails : Nat → Bool) :
    Option (Option Nat) → Option CellObjState × List VEvent × Option CusparseErr
  | none => (none, [], none)
  | some slot =>
    match slot with
    | some handle =>
      if fails handle then
        (some (.live none), [.exchangeCell (some handle), .destroyCall (some handle)],
          some ⟨"cusparseDestroy"⟩)
      else
        (some (.live none), [.exchangeCell (some handle), .destroyCall (some handle)], none)
    | none =>
      (some .freed, [.exchangeCell none, .deleteCell], none)

/-! ## The handle cache and get_handle
(cusparse_handle.hpp, cusparse_scope_handle.cpp lines 88-126)

The thread-local `cusparse_handle` owns `cusparse_handle_mapper_`, a map
from native context to a pointer to an atomic handle cell.  A map value
is `Option (Option Nat)`: `none` is a null cell pointer, `some slot` a
live cell whose atomic slot holds `slot` (`none` = null handle).  The
vendor library's per-handle stream binding (read by cusparseGetStream,
written by cusparseSetStream) and the fresh-handle supply of
cusparseCreate live in the same state record. -/

/-- Association-list lookup, first match wins (std::unordered_map::find;
keys are unique in every state the code builds). -/
def mapLookup {α : Type} : List (Nat × α) → Nat → Option α
  | [], _ => none
  | (k, v) :: rest, key => if k = key then some v else mapLookup rest key

/-- Association-list erase of a key (std::unordered_map::erase). -/
def mapErase {α : Type} (m : List (Nat × α)) (key : Nat) : List (Nat × α) :=
  m.filter (fun p => p.1 ≠ key)

/-- The per-thread cache plus the vendor-side state `get_handle` touches. -/
structure GHState where
  mapper : List (Nat × Option (Option Nat))
  streams : List (Nat × Nat)
  nextHandle : Nat
deriving DecidableEq, Repr

/-- The stream currently bound to a handle on the vendor side
(cusparseGetStream). -/
def streamOf (st : GHState) (handle : Nat) : Nat :=
  (mapLookup st.streams handle).getD 0

/-- The creation path of `get_handle` (steps after the cache misses):
cusparseCreate, cusparseSetStream, insertion of a fresh cell under the
context key, and registration of the context callback. -/
def createHandlePath (st : GHState) (piPlacedContext streamId : Nat) :
    Nat × GHState × List VEvent :=
  let handle := st.nextHandle
  (handle,
    { mapper := (piPlacedContext, some (some handle)) :: st.mapper,
      streams := (handle, streamId) :: st.streams,
      nextHandle := st.nextHandle + 1 },
    [.createCall handle, .setStreamCall handle streamId, .registerCallback])

/-- Embedding of `CusparseScopedContextHandler::get_handle`: the key is
the handler's `placedContext_`, the stream the queue's native stream.
A found entry whose cell pointer is null, or whose cell's slot is null-
handle, is erased and creation runs; a live handle has its stream
queried and rebound only when it differs from the queue's stream. -/
def get_handle (sc : CusparseScopedContextHandler) (st : GHState) (q : Queue) :
    Nat × GHState × List VEvent :=
  let piPlacedContext := sc.placedContext_
  let streamId := q.stream
  match mapLookup st.mapper piPlacedContext with
  | some cellPtr =>
    match cellPtr with
    | some slot =>
      match slot with
      | some handle =>
        let currentStreamId := streamOf st handle
        if currentStreamId ≠ streamId then
          (handle, { st with streams := (handle, streamId) :: st.streams },
            [.getStreamCall handle, .setStreamCall handle streamId])
        else
          (handle, st, [.getStreamCall handle])
      | none =>
        createHandlePath { st with mapper := mapErase st.mapper piPlacedContext }
          piPlacedContext streamId
    | none =>
      createHandlePath { st with mapper := mapErase st.mapper piPlacedContext }
        piPlacedContext streamId
  | none => createHandlePath st piPlacedContext streamId

/-! ## Cache teardown (cusparse_handle.hpp lines 33-53)

The `cusparse_handle` destructor iterates the map.  For each non-null
cell pointer it exchanges the slot with null; a non-null handle is
destroyed through CUSPARSE_ERROR_FUNC(cusparseDestroy, ...), which
throws on a vendor error — aborting the loop — while a null handle
means the callback already destroyed it and the cell object is deleted.
The `fails` oracle says which handles the vendor refuses to destroy. -/

/-- Embedding of the drain loop of the `cusparse_handle` destructor over
the map's entries, returning the events that happened and the error that
escaped the destructor, if any. -/
def drainEntries (fails : Nat → Bool) :
    List (Nat × Option (Option Nat)) → List VEvent × Option CusparseErr
  | [] => ([], none)
  | (_, cellPtr) :: rest =>
    match cellPtr with
    | none => drainEntries fails rest
    | some slot =>
      match slot with
      | some handle =>
        if fails handle then
          ([.exchangeCell (some handle), .destroyCall (some handle)],
            some ⟨"cusparseDestroy"⟩)
        else
          let r := drainEntries fails rest
          (.exchangeCell (some handle) :: .destroyCall (some handle) :: r.1, r.2)
      | none =>
        let r := drainEntries fails rest
        (.exchangeCell none :: .deleteCell :: r.1, r.2)

/-- The thread-local handle cache (struct cusparse_handle). -/
structure cusparse_handle where
  cusparse_handle_mapper_ : List (Nat × Option (Option Nat))
deriving DecidableEq, Repr

/-- The `cusparse_handle` destructor: drain the map. -/
def cusparse_handle.destructor (fails : Nat → Bool) (h : cusparse_handle) :
    List VEvent × Option CusparseErr :=
  drainEntries fails h.cusparse_handle_mapper_

/-! ## The host-task factory (cusparse_task.hpp lines 60-72)

`host_task_internal` submits a host task that constructs a scoped
context handler from the queue, invokes the caller's function with the
handler (only the handler — the function obtains the handle itself via
get_handle), then calls `wait_stream(queue)`; the handler is destroyed
when the lambda's scope ends.  `onemkl_cusparse_host_task` forwards to
it.  The caller's function is abstracted by the events it emits. -/

/-- Embedding of `CusparseScopedContextHandler::get_stream`: the queue's
native CUstream. -/
def CusparseScopedContextHandler.get_stream (q : Queue) : Nat := q.stream

/-- Modelled from the spec: `wait_stream(Q)` blocks until all work
previously submitted to Q's stream has completed (a synchronize on the
queue's native stream).  Its definition lives in
cusparse_scope_handle.hpp, which is not among the source files. -/
def wait_stream (q : Queue) : List VEvent :=
  [.syncStream (CusparseScopedContextHandler.get_stream q)]

/-- Embedding of the (non-hipSYCL) `host_task_internal` body: construct
the scoped handler, run the caller's function on it, wait on the queue's
stream, destroy the handler.  Returns the thread's active context after
the task and the emitted trace. -/
def host_task_internal (q : Queue) (f : CusparseScopedContextHandler → List VEvent)
    (threadCtx : Option Nat) : Option Nat × List VEvent :=
  let c := scopedCtor q threadCtx
  let d := scopedDtor c.1 c.2.1
  (d.1, c.2.2 ++ f c.1 ++ wait_stream q ++ d.2)

/-- Embedding of `onemkl_cusparse_host_task`, which forwards to
`host_task_internal`. -/
def onemkl_cusparse_host_task (q : Queue)
    (f : CusparseScopedContextHandler → List VEvent) (threadCtx : Option Nat) :
    Option Nat × List VEvent :=
  host_task_internal q f threadCtx

/-! ## The destroy race between cache teardown and the context callback

One cell, two potential destroyers: the per-entry body of the
`cusparse_handle` destructor (running at thread exit) and
`ContextCallback` (fired by the runtime at context destruction).  Each
party executes the same two-phase routine: an atomic exchange-with-null
on the cell's slot, then — depending on the value it received — either a
vendor destroy of that handle or a deletion of the cell object.  The
exchange is the single atomic step; the phases of the two parties may
interleave arbitrarily. -/

/-- Program counter of one destroyer party: before its exchange, after
its exchange (remembering the value received), or finished. -/
inductive PartyPC where
  | start
  | exchanged : Option Nat → PartyPC
  | finished
deriving DecidableEq, Repr

/-- Shared state of the race on one cell: the cell's atomic slot, each
party's program counter, the handles passed to cusparseDestroy so far,
and how many times the cell object was deleted. -/
structure RaceState where
  slot : Option Nat
  drainPC : PartyPC
  cbPC : PartyPC
  destroyed : List Nat
  cellDeletes : Nat
deriving DecidableEq, Repr

/-- Initial state: the cell holds live handle `h`, neither party has
run. -/
def initRace (h : Nat) : RaceState :=
  ⟨some h, .start, .start, [], 0⟩

/-- One interleaving step: either party performs its pending phase.  The
exchange atomically takes the slot; the second phase destroys the
non-null handle received, or deletes the cell on null, exactly as in
cusparse_handle's destructor body and in ContextCallback. -/
inductive RaceStep : RaceState → RaceState → Prop where
  | drainExchange (s : RaceState) (hpc : s.drainPC = .start) :
      RaceStep s { s with slot := none, drainPC := .exchanged s.slot }
  | drainDestroy (s : RaceState) (h : Nat) (hpc : s.drainPC = .exchanged (some h)) :
      RaceStep s { s with drainPC := .finished, destroyed := s.destroyed ++ [h] }
  | drainDelete (s : RaceState) (hpc : s.drainPC = .exchanged none) :
      RaceStep s { s with drainPC := .finished, cellDeletes := s.cellDeletes + 1 }
  | cbExchange (s : RaceState) (hpc : s.cbPC = .start) :
      RaceStep s { s with slot := none, cbPC := .exchanged s.slot }
  | cbDestroy (s : RaceState) (h : Nat) (hpc : s.cbPC = .exchanged (some h)) :
      RaceStep s { s with cbPC := .finished, destroyed := s.destroyed ++ [h] }
  | cbDelete (s : RaceState) (hpc : s.cbPC = .exchanged none) :
      RaceStep s { s with cbPC := .finished, cellDeletes := s.cellDeletes + 1 }

/-- Reachability along interleaving steps. -/
inductive RaceReach (init : RaceState) : RaceState → Prop where
  | refl : RaceReach init init
  | tail {s t : RaceState} : RaceReach init s → RaceStep s t → RaceReach init t

/-- Number of parties in the exchanged-a-handle phase. -/
def pendSome : PartyPC → Nat
  | .start => 0
  | .exchanged (some _) => 1
  | .exchanged none => 0
  | .finished => 0

/-- Number of parties in the exchanged-null phase. -/
def pendNone : PartyPC → Nat
  | .start => 0
  | .exchanged (some _) => 0
  | .exchanged none => 1
  | .finished => 0

/-- Number of parties that have not run yet. -/
def atStart : PartyPC → Nat
  | .start => 1
  | .exchanged _ => 0
  | .finished => 0

/-- Whether the slot still holds a handle, as a count. -/
def slotCount : Option Nat → Nat
  | some _ => 1
  | none => 0

/-- Inductive invariant of the race from `initRace h`: the one handle is
conserved between the slot, the parties' pending exchanges, and the
destroy log; cell deletions balance the parties that observed null; all
values in flight are `h`; and the slot is only full while nobody has
exchanged. -/
structure RaceInv (h : Nat) (s : RaceState) : Prop where
  destroyBalance :
    s.destroyed.length + pendSome s.drainPC + pendSome s.cbPC + slotCount s.slot = 1
  deleteBalance :
    s.cellDeletes + pendNone s.drainPC + pendNone s.cbPC
      + atStart s.drainPC + atStart s.cbPC = 1 + slotCount s.slot
  destroyedVals : ∀ x ∈ s.destroyed, x = h
  slotVal : ∀ x, s.slot = some x → x = h
  drainVal : ∀ x, s.drainPC = .exchanged (some x) → x = h
  cbVal : ∀ x, s.cbPC = .exchanged (some x) → x = h
  slotFullImpliesStart : s.slot ≠ none → s.drainPC = .start ∧ s.cbPC = .start

end CusparseShim

namespace CusparseShim

/-! ## Theorems for the overflow check, the callback and the scoped
handler. -/

/-- Claim C6: invoking the overflow check with a (nonnegative) matrix
dimension at least 2^31 fails synchronously with the overflow error
before any vendor call is issued by the outer interface, while a
dimension below the 31-bit limit passes through without error. -/
theorem overflow_check_limits (d : Int) (v : List VEvent) (hd : 0 ≤ d) :
    (overflowLimit ≤ d → outerInterface [d] v = ([], some overflowMsg)) ∧
    (d < overflowLimit → outerInterface [d] v = (v, none)) := by
  constructor
  · intro h
    have habs : overflowLimit ≤ |d| := by rwa [abs_of_nonneg hd]
    simp [outerInterface, overflow_check, Overflow.check, habs]
  · intro h
    have habs : ¬ overflowLimit ≤ |d| := by
      rw [abs_of_nonneg hd]; omega
    simp [outerInterface, overflow_check, Overflow.check, habs]

/-- Witness for overflow_check_limits at dimension 2^31 (which errors)
and, separately instantiable, below the limit. -/
theorem overflow_check_limits_witness :
    outerInterface [(2 ^ 31 : Int)] [] = ([], some overflowMsg) :=
  (overflow_check_limits (2 ^ 31) [] (by decide)).1 (by decide)

/-- Claim C10: the overflow check throws exactly when the index's
absolute value is at least 2^31, so a large negative dimension is
rejected like a large positive one. -/
theorem overflow_check_abs (d : Int) :
    Overflow.check [d] = Except.error overflowMsg ↔ overflowLimit ≤ |d| := by
  by_cases h : overflowLimit ≤ |d| <;> simp [Overflow.check, h]

/-- Claim C9: invoking the context callback with a null user-data
pointer is a total no-op: no exchange, no vendor destroy, no deletion,
no error, for every destroy-failure behavior of the vendor library. -/
theorem contextCallback_null_noop (fails : Nat → Bool) :
    ContextCallback fails none = (none, [], none) := rfl

/-- Claim C2: after the scoped handler built from queue Q is destroyed,
the thread's active context is the context it had at construction when
that was non-null, and Q's context otherwise. -/
theorem scoped_handler_restores_context (q : Queue) (tc : Option Nat) :
    (scopedDtor (scopedCtor q tc).1 (scopedCtor q tc).2.1).1 =
      (if tc = none then some q.ctx else tc) := by
  match tc with
  | none => simp [scopedCtor, scopedDtor]
  | some c =>
    by_cases h : c = q.ctx
    · subst h; simp [scopedCtor, scopedDtor]
    · have h2 : (some c ≠ some q.ctx) := by simp [h]
      simp [scopedCtor, scopedDtor, h2, h]

/-! ## Theorems for get_handle and the drain. -/

/-- Lookup immediately after prepending a binding finds it. -/
theorem mapLookup_cons_self {α : Type} (k : Nat) (v : α) (rest : List (Nat × α)) :
    mapLookup ((k, v) :: rest) k = some v := by
  simp [mapLookup]

/-- Claim C3: whenever get_handle returns a handle — on the cache-hit
path, where the stream is rebound only if it differs, as well as on the
creation paths — the handle's bound stream equals the queue's native
stream. -/
theorem get_handle_stream (sc : CusparseScopedContextHandler) (st : GHState) (q : Queue) :
    streamOf (get_handle sc st q).2.1 (get_handle sc st q).1 = q.stream := by
  unfold get_handle
  cases hm : mapLookup st.mapper sc.placedContext_ with
  | none => simp [hm, createHandlePath, streamOf, mapLookup]
  | some cellPtr =>
    cases cellPtr with
    | none => simp [hm, createHandlePath, streamOf, mapLookup]
    | some slot =>
      cases slot with
      | none => simp [hm, createHandlePath, streamOf, mapLookup]
      | some handle =>
        by_cases hs : (mapLookup st.streams handle).getD 0 = q.stream
        · simp [hm, hs, streamOf, mapLookup]
        · simp [hm, hs, streamOf, mapLookup]

/-- Claim C4: two consecutive get_handle calls through the same scoped
handler (no context destruction in between) return the identical cached
handle, and the second call issues no cusparseCreate. -/
theorem get_handle_idempotent (sc : CusparseScopedContextHandler) (st : GHState) (q : Queue) :
    (get_handle sc (get_handle sc st q).2.1 q).1 = (get_handle sc st q).1 ∧
    (get_handle sc (get_handle sc st q).2.1 q).2.2.filter VEvent.isCreate = [] := by
  unfold get_handle
  cases hm : mapLookup st.mapper sc.placedContext_ with
  | none => simp [hm, createHandlePath, streamOf, mapLookup, VEvent.isCreate]
  | some cellPtr =>
    cases cellPtr with
    | none => simp [hm, createHandlePath, streamOf, mapLookup, VEvent.isCreate]
    | some slot =>
      cases slot with
      | none => simp [hm, createHandlePath, streamOf, mapLookup, VEvent.isCreate]
      | some handle =>
        by_cases hs : (mapLookup st.streams handle).getD 0 = q.stream
        · simp [hm, hs, streamOf, mapLookup, VEvent.isCreate]
        · simp [hm, hs, streamOf, mapLookup, VEvent.isCreate]

/-- Claim C8: no code path of the cache teardown passes a null handle to
the vendor destroy entry point; destruction happens only on a non-null
value claimed by the exchange. -/
theorem drain_never_destroys_null (fails : Nat → Bool)
    (entries : List (Nat × Option (Option Nat))) :
    VEvent.destroyCall none ∉ (drainEntries fails entries).1 := by
  induction entries with
  | nil => simp [drainEntries]
  | cons p rest ih =>
    obtain ⟨k, cellPtr⟩ := p
    cases cellPtr with
    | none => simpa [drainEntries] using ih
    | some slot =>
      cases slot with
      | none =>
        simp only [drainEntries, List.mem_cons]
        push_neg
        exact ⟨by simp, by simp, ih⟩
      | some handle =>
        by_cases hf : fails handle
        · simp [drainEntries, hf]
        · simp only [drainEntries, hf, Bool.false_eq_true, if_false, List.mem_cons]
          push_neg
          exact ⟨by simp, by simp, ih⟩

/-- Witness for drain_never_destroys_null at a one-entry cache. -/
theorem drain_never_destroys_null_witness :
    VEvent.destroyCall none ∉ (drainEntries (fun _ => false) [(0, some (some 3))]).1 :=
  drain_never_destroys_null (fun _ => false) [(0, some (some 3))]

/-- Counterexample to claim C5 as stated: with two live entries and the
vendor refusing to destroy the first handle, the drain's trace stops at
the failed destroy — the second entry is never exchanged, destroyed or
deleted, so the drain does not continue reclaiming remaining entries. -/
theorem drain_abandons_rest_cex :
    drainEntries (fun h => h == 1) [(0, some (some 1)), (2, some (some 2))] =
      ([.exchangeCell (some 1), .destroyCall (some 1)], some ⟨"cusparseDestroy"⟩) ∧
    VEvent.exchangeCell (some 2) ∉
      (drainEntries (fun h => h == 1) [(0, some (some 1)), (2, some (some 2))]).1 ∧
    VEvent.destroyCall (some 2) ∉
      (drainEntries (fun h => h == 1) [(0, some (some 1)), (2, some (some 2))]).1 := by
  refine ⟨by decide, by decide, by decide⟩

/-- Amended claim C5: when destroying an entry's handle fails, the error
is surfaced by throwing out of the destructor at once; the iteration
stops and no reclaim attempt is made on the remaining entries. -/
theorem drain_stops_on_error (fails : Nat → Bool) (k handle : Nat)
    (rest : List (Nat × Option (Option Nat))) (hf : fails handle = true) :
    drainEntries fails ((k, some (some handle)) :: rest) =
      ([.exchangeCell (some handle), .destroyCall (some handle)],
        some ⟨"cusparseDestroy"⟩) := by
  simp [drainEntries, hf]

/-- Witness for drain_stops_on_error: a concrete always-failing drain. -/
theorem drain_stops_on_error_witness :
    drainEntries (fun _ => true) [(0, some (some 7)), (1, some (some 8))] =
      ([.exchangeCell (some 7), .destroyCall (some 7)],
        some ⟨"cusparseDestroy"⟩) :=
  drain_stops_on_error (fun _ => true) 0 7 [(1, some (some 8))] rfl

/-! ## Theorems for the host-task factory. -/

/-- Counterexample to claim C7 as stated: the factory itself does not
obtain a handle, and the caller's function receives only the handler.
With a function that performs no calls, the whole task's trace is the
context activation, the stream synchronization and nothing else — no
cusparseCreate is issued anywhere. -/
theorem host_task_no_handle_cex :
    (onemkl_cusparse_host_task ⟨1, 2⟩ (fun _ => []) none).2 =
      [.ctxGetCurrent, .ctxSetCurrent (some 1), .syncStream 2] ∧
    (onemkl_cusparse_host_task ⟨1, 2⟩ (fun _ => []) none).2.filter VEvent.isCreate
      = [] := by
  constructor <;> rfl

/-- Amended claim C7: the host-task factory constructs the scoped
context handler, invokes the caller's function with the handler alone
(the function obtains the handle itself through get_handle), and after
it returns synchronizes the queue's stream before the handler is
destroyed, in that order. -/
theorem host_task_order (q : Queue) (f : CusparseScopedContextHandler → List VEvent)
    (tc : Option Nat) :
    (onemkl_cusparse_host_task q f tc).2 =
      (scopedCtor q tc).2.2 ++ f (scopedCtor q tc).1 ++ [VEvent.syncStream q.stream]
        ++ (scopedDtor (scopedCtor q tc).1 (scopedCtor q tc).2.1).2 := rfl

/-! ## Theorems for the destroy race. -/

/-- A slot holds at most one handle. -/
theorem slotCount_le_one (o : Option Nat) : slotCount o ≤ 1 := by
  cases o <;> simp [slotCount]

/-- Exchanging transfers the slot's content into the party's pending
phase. -/
theorem pendSome_exchanged (o : Option Nat) :
    pendSome (.exchanged o) = slotCount o := by
  cases o <;> rfl

/-- A party that exchanged got the handle or got null, exclusively. -/
theorem pendNone_exchanged (o : Option Nat) :
    pendNone (.exchanged o) + slotCount o = 1 := by
  cases o <;> rfl

/-- The invariant holds initially. -/
theorem raceInv_init (h : Nat) : RaceInv h (initRace h) := by
  refine ⟨?_, ?_, ?_, ?_, ?_, ?_, ?_⟩
  · simp [initRace, pendSome, atStart, slotCount]
  · simp [initRace, pendNone, atStart, slotCount]
  · intro x hx; simp [initRace] at hx
  · intro x hx; simp [initRace] at hx; omega
  · intro x hx; simp [initRace] at hx
  · intro x hx; simp [initRace] at hx
  · intro _; exact ⟨rfl, rfl⟩

/-- The invariant is preserved by every interleaving step. -/
theorem raceInv_step (h : Nat) (s t : RaceState) (hst : RaceStep s t)
    (hi : RaceInv h s) : RaceInv h t := by
  obtain ⟨e1, e2, hall, hslot, hdr, hcb, hsf⟩ := hi
  cases hst with
  | drainExchange hpc =>
    rw [hpc] at e1 e2
    refine ⟨?_, ?_, hall, ?_, ?_, hcb, ?_⟩
    · cases hsl : s.slot <;> rw [hsl] at e1 <;>
        simp only [pendSome, slotCount] at e1 ⊢ <;> omega
    · cases hsl : s.slot <;> rw [hsl] at e2 <;>
        simp only [pendNone, atStart, slotCount] at e2 ⊢ <;> omega
    · intro x hx; simp at hx
    · intro x hx
      injection hx with h2
      exact hslot x h2
    · intro hne; exact absurd rfl hne
  | drainDestroy h2 hpc =>
    rw [hpc] at e1 e2
    refine ⟨?_, ?_, ?_, hslot, ?_, hcb, ?_⟩
    · simp only [pendSome, List.length_append, List.length_cons, List.length_nil] at e1 ⊢
      omega
    · simp only [pendNone, atStart] at e2 ⊢
      omega
    · intro x hx
      rcases List.mem_append.mp hx with hx1 | hx2
      · exact hall x hx1
      · rw [List.mem_singleton.mp hx2]
        exact hdr h2 hpc
    · intro x hx; simp at hx
    · intro hne
      have h3 := (hsf hne).1
      rw [h3] at hpc
      exact absurd hpc (by simp)
  | drainDelete hpc =>
    rw [hpc] at e1 e2
    refine ⟨?_, ?_, hall, hslot, ?_, hcb, ?_⟩
    · simp only [pendSome] at e1 ⊢
      omega
    · simp only [pendNone, atStart] at e2 ⊢
      omega
    · intro x hx; simp at hx
    · intro hne
      have h3 := (hsf hne).1
      rw [h3] at hpc
      exact absurd hpc (by simp)
  | cbExchange hpc =>
    rw [hpc] at e1 e2
    refine ⟨?_, ?_, hall, ?_, hdr, ?_, ?_⟩
    · cases hsl : s.slot <;> rw [hsl] at e1 <;>
        simp only [pendSome, slotCount] at e1 ⊢ <;> omega
    · cases hsl : s.slot <;> rw [hsl] at e2 <;>
        simp only [pendNone, atStart, slotCount] at e2 ⊢ <;> omega
    · intro x hx; simp at hx
    · intro x hx
      injection hx with h2
      exact hslot x h2
    · intro hne; exact absurd rfl hne
  | cbDestroy h2 hpc =>
    rw [hpc] at e1 e2
    refine ⟨?_, ?_, ?_, hslot, hdr, ?_, ?_⟩
    · simp only [pendSome, List.length_append, List.length_cons, List.length_nil] at e1 ⊢
      omega
    · simp only [pendNone, atStart] at e2 ⊢
      omega
    · intro x hx
      rcases List.mem_append.mp hx with hx1 | hx2
      · exact hall x hx1
      · rw [List.mem_singleton.mp hx2]
        exact hcb h2 hpc
    · intro x hx; simp at hx
    · intro hne
      have h3 := (hsf hne).2
      rw [h3] at hpc
      exact absurd hpc (by simp)
  | cbDelete hpc =>
    rw [hpc] at e1 e2
    refine ⟨?_, ?_, hall, hslot, hdr, ?_, ?_⟩
    · simp only [pendSome] at e1 ⊢
      omega
    · simp only [pendNone, atStart] at e2 ⊢
      omega
    · intro x hx; simp at hx
    · intro hne
      have h3 := (hsf hne).2
      rw [h3] at hpc
      exact absurd hpc (by simp)

/-- The invariant holds in every reachable state. -/
theorem raceInv_reach (h : Nat) (s : RaceState)
    (hr : RaceReach (initRace h) s) : RaceInv h s := by
  induction hr with
  | refl => exact raceInv_init h
  | tail _ hst ih => exact raceInv_step h _ _ hst ih

/-- Claim C1: for every cell ever created, however the cache-teardown
drain and the context callback interleave, once both parties have run,
the vendor destroy entry point was invoked on the cell's handle exactly
once, and the party that observed null deleted the cell (exactly one
cell deletion). -/
theorem cell_destroyed_exactly_once (h : Nat) (s : RaceState)
    (hr : RaceReach (initRace h) s)
    (hd : s.drainPC = .finished) (hc : s.cbPC = .finished) :
    s.destroyed = [h] ∧ s.cellDeletes = 1 := by
  obtain ⟨e1, e2, hall, _, _, _, hsf⟩ := raceInv_reach h s hr
  have hslotnone : s.slot = none := by
    by_contra hne
    have h3 := (hsf hne).1
    rw [hd] at h3
    exact absurd h3 (by simp)
  rw [hd, hc, hslotnone] at e1 e2
  simp only [pendSome, pendNone, atStart, slotCount] at e1 e2
  refine ⟨?_, by omega⟩
  cases hd2 : s.destroyed with
  | nil => rw [hd2] at e1; simp at e1
  | cons a l =>
    rw [hd2] at e1
    simp only [List.length_cons] at e1
    have ha : a = h := hall a (by rw [hd2]; exact List.mem_cons_self a l)
    have hl : l = [] := List.length_eq_zero.mp (by omega)
    rw [ha, hl]

/-- Witness for cell_destroyed_exactly_once: the interleaving where the
drain exchanges and destroys first, then the callback observes null and
deletes the cell. -/
theorem cell_destroyed_exactly_once_witness :
    (⟨none, .finished, .finished, [5], 1⟩ : RaceState).destroyed = [5] ∧
    (⟨none, .finished, .finished, [5], 1⟩ : RaceState).cellDeletes = 1 :=
  cell_destroyed_exactly_once 5 ⟨none, .finished, .finished, [5], 1⟩
    (RaceReach.tail
      (RaceReach.tail
        (RaceReach.tail
          (RaceReach.tail RaceReach.refl
            (RaceStep.drainExchange (initRace 5) rfl))
          (RaceStep.drainDestroy ⟨none, .exchanged (some 5), .start, [], 0⟩ 5 rfl))
        (RaceStep.cbExchange ⟨none, .finished, .start, [5], 0⟩ rfl))
      (RaceStep.cbDelete ⟨none, .finished, .exchanged none, [5], 0⟩ rfl))
    rfl rfl

end CusparseShim
